import Mathlib

/-!
Verification of the SwarmSH v2 semantic-convention code generator
(`generate_simple.py`).  The generator loads a registry manifest plus the
convention files it references, then emits two Rust artifacts: a constants
file (`attributes.rs`) and a span-builders file (`span_builders.rs`).

The embedding below mirrors the Python source shallowly: YAML documents
become structures whose optional fields model the dynamic key lookups of
the source (`group.get("type")`, `"id" in attr`, ...); a Python `KeyError`
or `FileNotFoundError` becomes an `Except` error; the Python `dict`
keyed by file path becomes an association list with the insertion
semantics of an insertion-ordered dict.  String case mapping is ASCII, as
exercised by the dotted identifiers the registry uses.
-/

namespace SwarmSH

/-- Errors the generator can raise: a missing file during loading
(`FileNotFoundError`) or a missing mandatory key (`KeyError`). -/
inductive Err where
  | fileNotFound (path : String)
  | keyError (key : String)
  deriving DecidableEq, Repr

/-- One attribute entry of a group; the source only ever reads its
optional `id` key (`if "id" in attr: attr["id"]`). -/
structure Attr where
  id : Option String
  deriving DecidableEq, Repr

/-- One convention group, with the four keys the source reads:
`group["id"]`, `group.get("brief", ...)`, `group.get("type")`,
`group["attributes"]` guarded by `"attributes" in group`. -/
structure Group where
  id : Option String
  brief : Option String
  type : Option String
  attributes : Option (List Attr)
  deriving DecidableEq, Repr

/-- A parsed convention document; the source only reads its optional
`groups` key (`if "groups" not in data: continue`). -/
structure Document where
  groups : Option (List Group)
  deriving DecidableEq, Repr

/-- One group record of the registry manifest, with its list of relative
convention-file paths (`group["paths"]`). -/
structure ManifestGroup where
  paths : List String
  deriving DecidableEq, Repr

/-- The registry manifest (`registry_manifest.yaml`):
an ordered sequence of manifest groups (`registry["groups"]`). -/
structure Manifest where
  groups : List ManifestGroup
  deriving DecidableEq, Repr

/-- The file system visible to the generator: the manifest file (absent
when the manifest itself is missing) and the convention files, addressed
by their manifest-relative path. -/
structure FS where
  manifest : Option Manifest
  files : String → Option Document

/-- Insertion into an insertion-ordered dictionary, as in
`conventions[path] = data` on a Python `dict`: an existing key keeps its
position and has its value overwritten; a new key is appended. -/
def dictInsert (m : List (String × Document)) (k : String) (v : Document) :
    List (String × Document) :=
  if m.any (fun kv => kv.1 = k) then
    m.map (fun kv => if kv.1 = k then (k, v) else kv)
  else
    m ++ [(k, v)]

/-- The loading loop of `load_semantic_conventions`: for every listed
path, in manifest order, open the file (failing with `FileNotFoundError`
when absent) and store the parsed document under the path. -/
def loadPaths (files : String → Option Document) :
    List String → List (String × Document) → Except Err (List (String × Document))
  | [], acc => .ok acc
  | p :: ps, acc =>
    match files p with
    | none => .error (.fileNotFound p)
    | some d => loadPaths files ps (dictInsert acc p d)

/-- `load_semantic_conventions`: read the registry manifest, then load
every convention file listed by any manifest group, producing the ordered
path-to-document mapping. -/
def load_semantic_conventions (fs : FS) : Except Err (List (String × Document)) :=
  match fs.manifest with
  | none => .error (.fileNotFound "registry_manifest.yaml")
  | some registry =>
    loadPaths fs.files (registry.groups.flatMap ManifestGroup.paths) []

/-- A Python-style `for x in xs: lines += emit(x)` loop where `emit` can
raise: concatenates the emitted line blocks, propagating the first
error. -/
def exceptConcat (f : α → Except Err (List String)) :
    List α → Except Err (List String)
  | [] => .ok []
  | x :: xs =>
    match f x with
    | .error e => .error e
    | .ok l =>
      match exceptConcat f xs with
      | .error e => .error e
      | .ok l2 => .ok (l ++ l2)

/-- The single-character replacement `s.replace(".", "_")` of the
source, character by character. -/
def dotToUnderscore (s : String) : String :=
  ⟨s.data.map (fun c => if c = '.' then '_' else c)⟩

/-- ASCII upper-casing, `s.upper()` of the source on its dotted
identifiers. -/
def pyUpper (s : String) : String := ⟨s.data.map Char.toUpper⟩

/-- ASCII lower-casing, `s.lower()` of the source on its dotted
identifiers. -/
def pyLower (s : String) : String := ⟨s.data.map Char.toLower⟩

/-- The constant line emitted for attribute id `aid` of the group with id
`gid`: name is the attribute id with dots replaced by underscores,
upper-cased; value is the dot-joined `gid.aid`. -/
def constLine (gid aid : String) : String :=
  "    pub const " ++ pyUpper (dotToUnderscore aid)
    ++ ": &str = \"" ++ gid ++ "." ++ aid ++ "\";"

/-- The constant lines of one group's attribute list: attributes lacking
an `id` are skipped (`if "id" in attr`). -/
def attrConstLines (gid : String) (attrs : List Attr) : List String :=
  attrs.filterMap (fun a => a.id.map (constLine gid))

/-- The emitted namespace token of a group id:
`group["id"].replace(".", "_").upper()` then `.lower()`. -/
def modToken (gid : String) : String :=
  pyLower (pyUpper (dotToUnderscore gid))

/-- The block of lines `generate_attributes_rs` emits for one group:
brief comment, module open, one constant per attribute that has an id,
module close, blank line.  A group without an `id` key raises
`KeyError("id")`. -/
def groupConstLines (g : Group) : Except Err (List String) :=
  match g.id with
  | none => .error (.keyError "id")
  | some gid =>
    .ok (["// " ++ g.brief.getD "Group constants",
          "pub mod " ++ modToken gid ++ " \x7b"]
         ++ attrConstLines gid (g.attributes.getD [])
         ++ ["\x7d", ""])

/-- The constant lines contributed by one convention document: nothing
when it has no `groups` key, otherwise every group's block in order. -/
def docConstLines (d : Document) : Except Err (List String) :=
  match d.groups with
  | none => .ok []
  | some gs => exceptConcat groupConstLines gs

/-- The fixed header of `attributes.rs`. -/
def attributesHeader : List String :=
  ["// Generated from SwarmSH v2 semantic conventions",
   "// 80/20 implementation - core attributes only",
   "",
   "use std::collections::HashMap;",
   ""]

/-- `generate_attributes_rs`: the constants artifact, as one string, for
a loaded conventions mapping. -/
def generate_attributes_rs (conv : List (String × Document)) : Except Err String :=
  match exceptConcat (fun pd => docConstLines pd.2) conv with
  | .error e => .error e
  | .ok ls => .ok (String.intercalate "\n" (attributesHeader ++ ls))

/-- The four lines of the builder function emitted for a span-typed group
with id `gid`: the function is `create_<gid with dots to underscores>_span`
and starts a span named exactly the raw dotted `gid`. -/
def spanFnLines (gid : String) : List String :=
  ["pub fn create_" ++ dotToUnderscore gid
     ++ "_span(tracer: &impl Tracer) -> BoxedSpan \x7b",
   "    tracer.start(\"" ++ gid ++ "\")",
   "\x7d",
   ""]

/-- The span-builder lines of one group: a builder only when
`group.get("type") == "span"`, in which case a missing `id` raises
`KeyError("id")`; any other group contributes nothing. -/
def groupSpanLines (g : Group) : Except Err (List String) :=
  if g.type = some "span" then
    match g.id with
    | none => .error (.keyError "id")
    | some gid => .ok (spanFnLines gid)
  else
    .ok []

/-- The span-builder lines contributed by one convention document. -/
def docSpanLines (d : Document) : Except Err (List String) :=
  match d.groups with
  | none => .ok []
  | some gs => exceptConcat groupSpanLines gs

/-- The fixed preamble of `span_builders.rs`: header comments, imports,
and the three hard-coded builder functions, emitted before any
registry-driven builder. -/
def spanPreludeLines : List String :=
  ["// Generated span builders from SwarmSH v2 semantic conventions",
   "",
   "use opentelemetry::global::BoxedSpan;",
   "use opentelemetry::trace::Tracer;",
   "",
   "// Core span builders expected by lib.rs",
   "pub fn agent_lifecycle_span(tracer: &impl Tracer) -> BoxedSpan \x7b",
   "    tracer.start(\"swarmsh.agent.lifecycle\")",
   "\x7d",
   "",
   "pub fn work_coordination_span(tracer: &impl Tracer) -> BoxedSpan \x7b",
   "    tracer.start(\"swarmsh.work.coordination\")",
   "\x7d",
   "",
   "pub fn coordination_protocol_span(tracer: &impl Tracer) -> BoxedSpan \x7b",
   "    tracer.start(\"swarmsh.coordination.protocol\")",
   "\x7d",
   "",
   "// Generated span builders for all groups"]

/-- `generate_span_builders_rs`: the span-builders artifact, as one
string, for a loaded conventions mapping. -/
def generate_span_builders_rs (conv : List (String × Document)) : Except Err String :=
  match exceptConcat (fun pd => docSpanLines pd.2) conv with
  | .error e => .error e
  | .ok ls => .ok (String.intercalate "\n" (spanPreludeLines ++ ls))

/-- The observable outcome of one generator run: the contents written to
`attributes.rs` and to `span_builders.rs` (absent when the run aborted
before the corresponding write), and the fatal error, if any. -/
structure RunResult where
  attributesFile : Option String
  spanBuildersFile : Option String
  error : Option Err
  deriving DecidableEq, Repr

/-- `main`: load the conventions, then generate and write `attributes.rs`,
then generate and write `span_builders.rs`.  The write of the constants
artifact precedes span-builder emission, exactly as in the source. -/
def main (fs : FS) : RunResult :=
  match load_semantic_conventions fs with
  | .error e => ⟨none, none, some e⟩
  | .ok conv =>
    match generate_attributes_rs conv with
    | .error e => ⟨none, none, some e⟩
    | .ok attrs =>
      match generate_span_builders_rs conv with
      | .error e => ⟨some attrs, none, some e⟩
      | .ok spans => ⟨some attrs, some spans, none⟩

/-! Helper lemmas about the emission loop `exceptConcat`. -/

/-- An emission loop succeeds when every element's emission succeeds. -/
theorem exceptConcat_ok_of_forall (f : α → Except Err (List String))
    (xs : List α) (h : ∀ x ∈ xs, ∃ l, f x = .ok l) :
    ∃ out, exceptConcat f xs = .ok out := by
  induction xs with
  | nil => exact ⟨[], rfl⟩
  | cons x xs ih =>
    obtain ⟨l, hl⟩ := h x (List.mem_cons_self x xs)
    obtain ⟨out, hout⟩ := ih (fun y hy => h y (List.mem_cons_of_mem x hy))
    exact ⟨l ++ out, by simp [exceptConcat, hl, hout]⟩

/-- The lines a loop emits contain, contiguously, the block emitted for
any one of its elements. -/
theorem exceptConcat_segment (f : α → Except Err (List String))
    (xs : List α) (out : List String) (x : α) (l : List String)
    (hout : exceptConcat f xs = .ok out) (hx : x ∈ xs) (hl : f x = .ok l) :
    ∃ pre post, out = pre ++ l ++ post := by
  induction xs generalizing out with
  | nil => cases hx
  | cons y ys ih =>
    rcases List.mem_cons.mp hx with rfl | hmem
    · rw [exceptConcat, hl] at hout
      cases hys : exceptConcat f ys with
      | error e => rw [hys] at hout; cases hout
      | ok l2 =>
        rw [hys] at hout
        cases hout
        exact ⟨[], l2, by simp⟩
    · rw [exceptConcat] at hout
      cases hy : f y with
      | error e => rw [hy] at hout; cases hout
      | ok ly =>
        rw [hy] at hout
        cases hys : exceptConcat f ys with
        | error e => rw [hys] at hout; cases hout
        | ok l2 =>
          rw [hys] at hout
          cases hout
          obtain ⟨pre, post, hsplit⟩ := ih l2 hys hmem
          exact ⟨ly ++ pre, post, by simp [hsplit]⟩

/-- A failing emission loop fails with an error raised by one of its
elements. -/
theorem exceptConcat_error_mem (f : α → Except Err (List String))
    (xs : List α) (e : Err) (h : exceptConcat f xs = .error e) :
    ∃ x ∈ xs, f x = .error e := by
  induction xs with
  | nil => cases h
  | cons y ys ih =>
    rw [exceptConcat] at h
    cases hy : f y with
    | error e2 =>
      rw [hy] at h
      cases h
      exact ⟨y, List.mem_cons_self y ys, hy⟩
    | ok ly =>
      rw [hy] at h
      cases hys : exceptConcat f ys with
      | error e2 =>
        rw [hys] at h
        cases h
        obtain ⟨x, hx, hfx⟩ := ih hys
        exact ⟨x, List.mem_cons_of_mem y hx, hfx⟩
      | ok l2 => rw [hys] at h; cases h

/-- An emission loop with a failing element fails. -/
theorem exceptConcat_error_of_mem (f : α → Except Err (List String))
    (xs : List α) (x : α) (e : Err) (hx : x ∈ xs) (hfx : f x = .error e) :
    ∃ e2, exceptConcat f xs = .error e2 := by
  induction xs with
  | nil => cases hx
  | cons y ys ih =>
    rcases List.mem_cons.mp hx with rfl | hmem
    · exact ⟨e, by rw [exceptConcat, hfx]⟩
    · cases hy : f y with
      | error e2 => exact ⟨e2, by rw [exceptConcat, hy]⟩
      | ok ly =>
        obtain ⟨e2, h2⟩ := ih hmem
        exact ⟨e2, by rw [exceptConcat, hy, h2]⟩

/-! Helper lemmas about the per-group emitters. -/

/-- Constant emission for a group fails exactly when the group lacks an
`id`, and then with `KeyError("id")`. -/
theorem groupConstLines_error_iff (g : Group) (e : Err) :
    groupConstLines g = .error e ↔ g.id = none ∧ e = .keyError "id" := by
  cases hid : g.id with
  | none => simp [groupConstLines, hid, eq_comm]
  | some gid => simp [groupConstLines, hid]

/-- Constant emission for a group succeeds exactly when the group has an
`id`. -/
theorem groupConstLines_ok_iff (g : Group) :
    (∃ l, groupConstLines g = .ok l) ↔ g.id.isSome := by
  cases hid : g.id with
  | none => simp [groupConstLines, hid]
  | some gid => simp [groupConstLines, hid]

/-- Span emission errors only with `KeyError("id")`, and only for a
span-typed group lacking an `id`. -/
theorem groupSpanLines_error_iff (g : Group) (e : Err) :
    groupSpanLines g = .error e ↔
      g.type = some "span" ∧ g.id = none ∧ e = .keyError "id" := by
  by_cases ht : g.type = some "span"
  · cases hid : g.id with
    | none => simp [groupSpanLines, ht, hid, eq_comm]
    | some gid => simp [groupSpanLines, ht, hid]
  · simp [groupSpanLines, ht]

/-- A group whose constant emission succeeds also has a successful span
emission: span emission only ever needs the `id` key, and only for
span-typed groups. -/
theorem groupSpanLines_ok_of_constOk (g : Group)
    (h : ∃ l, groupConstLines g = .ok l) : ∃ l, groupSpanLines g = .ok l := by
  have hid : g.id.isSome := (groupConstLines_ok_iff g).mp h
  obtain ⟨gid, hgid⟩ := Option.isSome_iff_exists.mp hid
  by_cases ht : g.type = some "span"
  · exact ⟨spanFnLines gid, by simp [groupSpanLines, ht, hgid]⟩
  · exact ⟨[], by simp [groupSpanLines, ht]⟩

/-- A successful emission loop had every element's emission succeed. -/
theorem exceptConcat_forall_ok (f : α → Except Err (List String))
    (xs : List α) (out : List String) (h : exceptConcat f xs = .ok out) :
    ∀ x ∈ xs, ∃ l, f x = .ok l := by
  induction xs generalizing out with
  | nil => intro x hx; cases hx
  | cons y ys ih =>
    intro x hx
    rw [exceptConcat] at h
    cases hy : f y with
    | error e => rw [hy] at h; cases h
    | ok ly =>
      rw [hy] at h
      cases hys : exceptConcat f ys with
      | error e => rw [hys] at h; cases h
      | ok l2 =>
        rcases List.mem_cons.mp hx with rfl | hmem
        · exact ⟨ly, hy⟩
        · exact ih l2 hys x hmem

/-! Helper lemmas about the Python-dict insertion used by the loader. -/

/-- Inserting keeps the key sequence unchanged when the key is present,
and appends the key otherwise. -/
theorem dictInsert_keys (m : List (String × Document)) (k : String) (v : Document) :
    (dictInsert m k v).map Prod.fst =
      if k ∈ m.map Prod.fst then m.map Prod.fst else m.map Prod.fst ++ [k] := by
  have hany : (m.any (fun kv => kv.1 = k)) = true ↔ k ∈ m.map Prod.fst := by
    rw [List.any_eq_true]
    constructor
    · rintro ⟨kv, hkv, heq⟩
      simp only [decide_eq_true_eq] at heq
      exact List.mem_map.mpr ⟨kv, hkv, heq⟩
    · intro hk
      obtain ⟨kv, hkv, heq⟩ := List.mem_map.mp hk
      exact ⟨kv, hkv, by simp [heq]⟩
  by_cases hk : k ∈ m.map Prod.fst
  · rw [if_pos hk]
    rw [dictInsert, if_pos (hany.mpr hk), List.map_map]
    apply List.map_congr_left
    intro kv _
    by_cases hkv : kv.1 = k
    · simp [hkv]
    · simp [hkv]
  · rw [if_neg hk]
    rw [dictInsert]
    rw [if_neg (fun hc => hk (hany.mp hc))]
    simp

/-- Insertion preserves distinctness of the keys. -/
theorem dictInsert_nodup (m : List (String × Document)) (k : String) (v : Document)
    (h : (m.map Prod.fst).Nodup) : ((dictInsert m k v).map Prod.fst).Nodup := by
  rw [dictInsert_keys]
  by_cases hk : k ∈ m.map Prod.fst
  · rwa [if_pos hk]
  · rw [if_neg hk]
    refine List.Nodup.append h (List.nodup_singleton k) ?_
    intro x hx hx2
    rw [List.mem_singleton] at hx2
    exact hk (hx2 ▸ hx)

/-- Membership of a key after insertion. -/
theorem dictInsert_mem_keys (m : List (String × Document)) (k k' : String)
    (v : Document) :
    k' ∈ (dictInsert m k v).map Prod.fst ↔ k' ∈ m.map Prod.fst ∨ k' = k := by
  rw [dictInsert_keys]
  by_cases hk : k ∈ m.map Prod.fst
  · rw [if_pos hk]
    constructor
    · exact fun h => Or.inl h
    · rintro (h | rfl)
      · exact h
      · exact hk
  · rw [if_neg hk]
    simp

/-- Every pair of the dictionary after insertion is either an untouched
pair of the old dictionary or the newly written pair. -/
theorem dictInsert_mem_pairs (m : List (String × Document)) (k : String)
    (v : Document) (pr : String × Document) (h : pr ∈ dictInsert m k v) :
    pr ∈ m ∨ pr = (k, v) := by
  rw [dictInsert] at h
  by_cases hany : (m.any (fun kv => kv.1 = k)) = true
  · rw [if_pos hany] at h
    obtain ⟨kv, hkv, heq⟩ := List.mem_map.mp h
    by_cases hk : kv.1 = k
    · rw [if_pos hk] at heq
      exact Or.inr heq.symm
    · rw [if_neg hk] at heq
      exact Or.inl (heq ▸ hkv)
  · rw [if_neg hany] at h
    rcases List.mem_append.mp h with hm | hnew
    · exact Or.inl hm
    · exact Or.inr (List.mem_singleton.mp hnew)

/-! Helper lemmas about the loading loop. -/

/-- A successful loading pass keeps the mapping's keys distinct. -/
theorem loadPaths_nodup (files : String → Option Document) (ps : List String)
    (acc conv : List (String × Document)) (h : loadPaths files ps acc = .ok conv)
    (hacc : (acc.map Prod.fst).Nodup) : (conv.map Prod.fst).Nodup := by
  induction ps generalizing acc with
  | nil => rw [loadPaths] at h; cases h; exact hacc
  | cons p ps ih =>
    rw [loadPaths] at h
    cases hp : files p with
    | none => rw [hp] at h; cases h
    | some d =>
      rw [hp] at h
      exact ih (dictInsert acc p d) h (dictInsert_nodup acc p d hacc)

/-- The keys after a successful loading pass are the starting keys plus
the traversed paths. -/
theorem loadPaths_mem_keys (files : String → Option Document) (ps : List String)
    (acc conv : List (String × Document)) (h : loadPaths files ps acc = .ok conv)
    (k : String) : k ∈ conv.map Prod.fst ↔ k ∈ acc.map Prod.fst ∨ k ∈ ps := by
  induction ps generalizing acc with
  | nil => rw [loadPaths] at h; cases h; simp
  | cons p ps ih =>
    rw [loadPaths] at h
    cases hp : files p with
    | none => rw [hp] at h; cases h
    | some d =>
      rw [hp] at h
      rw [ih (dictInsert acc p d) h, dictInsert_mem_keys]
      simp only [List.mem_cons]
      tauto

/-- Every pair of the loaded mapping holds the document the file system
stores at its path. -/
theorem loadPaths_pairs (files : String → Option Document) (ps : List String)
    (acc conv : List (String × Document)) (h : loadPaths files ps acc = .ok conv)
    (hacc : ∀ pr ∈ acc, files pr.1 = some pr.2) :
    ∀ pr ∈ conv, files pr.1 = some pr.2 := by
  induction ps generalizing acc with
  | nil => rw [loadPaths] at h; cases h; exact hacc
  | cons p ps ih =>
    rw [loadPaths] at h
    cases hp : files p with
    | none => rw [hp] at h; cases h
    | some d =>
      rw [hp] at h
      refine ih (dictInsert acc p d) h ?_
      intro pr hpr
      rcases dictInsert_mem_pairs acc p d pr hpr with hm | rfl
      · exact hacc pr hm
      · exact hp

/-- A listed path missing from the file system makes the loading pass
fail with a file-not-found error naming a missing file. -/
theorem loadPaths_error_of_missing (files : String → Option Document)
    (ps : List String) (acc : List (String × Document)) (p : String)
    (hp : p ∈ ps) (hmiss : files p = none) :
    ∃ q, loadPaths files ps acc = .error (.fileNotFound q) ∧ files q = none := by
  induction ps generalizing acc with
  | nil => cases hp
  | cons p' ps ih =>
    cases hp' : files p' with
    | none => exact ⟨p', by rw [loadPaths, hp'], hp'⟩
    | some d =>
      have hmem : p ∈ ps := by
        rcases List.mem_cons.mp hp with rfl | hmem
        · rw [hp'] at hmiss; cases hmiss
        · exact hmem
      obtain ⟨q, hq, hqmiss⟩ := ih (dictInsert acc p' d) hmem
      exact ⟨q, by rw [loadPaths, hp']; exact hq, hqmiss⟩

/-! Lemmas connecting the two emission passes. -/

/-- A document whose constant emission succeeds also has a successful
span emission. -/
theorem docSpanLines_ok_of_constOk (d : Document)
    (h : ∃ l, docConstLines d = .ok l) : ∃ l, docSpanLines d = .ok l := by
  cases hg : d.groups with
  | none => exact ⟨[], by rw [docSpanLines, hg]⟩
  | some gs =>
    obtain ⟨l, hl⟩ := h
    rw [docConstLines, hg] at hl
    have hall := exceptConcat_forall_ok groupConstLines gs l hl
    obtain ⟨out, hout⟩ := exceptConcat_ok_of_forall groupSpanLines gs
      (fun g hgmem => groupSpanLines_ok_of_constOk g (hall g hgmem))
    exact ⟨out, by rw [docSpanLines, hg]; exact hout⟩

/-- Constant emission of a document fails only with `KeyError("id")`. -/
theorem docConstLines_error_elim (d : Document) (e : Err)
    (h : docConstLines d = .error e) : e = .keyError "id" := by
  cases hg : d.groups with
  | none => rw [docConstLines, hg] at h; cases h
  | some gs =>
    rw [docConstLines, hg] at h
    obtain ⟨g, _, hge⟩ := exceptConcat_error_mem groupConstLines gs e h
    exact ((groupConstLines_error_iff g e).mp hge).2

/-- The constants artifact fails only with `KeyError("id")`. -/
theorem generate_attributes_rs_error_elim (conv : List (String × Document))
    (e : Err) (h : generate_attributes_rs conv = .error e) : e = .keyError "id" := by
  rw [generate_attributes_rs] at h
  cases hc : exceptConcat (fun pd => docConstLines pd.2) conv with
  | error e2 =>
    rw [hc] at h
    cases h
    obtain ⟨pr, _, hpe⟩ :=
      exceptConcat_error_mem (fun pd => docConstLines pd.2) conv e hc
    exact docConstLines_error_elim pr.2 e hpe
  | ok ls => rw [hc] at h; cases h

/-- When the constants artifact is produced in memory, the span-builders
artifact is produced as well: the span pass demands strictly less of the
conventions than the constant pass. -/
theorem generate_span_builders_ok_of_attributes_ok
    (conv : List (String × Document)) (a : String)
    (h : generate_attributes_rs conv = .ok a) :
    ∃ b, generate_span_builders_rs conv = .ok b := by
  rw [generate_attributes_rs] at h
  cases hc : exceptConcat (fun pd => docConstLines pd.2) conv with
  | error e => rw [hc] at h; cases h
  | ok ls =>
    have hall := exceptConcat_forall_ok (fun pd => docConstLines pd.2) conv ls hc
    obtain ⟨out, hout⟩ := exceptConcat_ok_of_forall (fun pd => docSpanLines pd.2) conv
      (fun pd hpd => docSpanLines_ok_of_constOk pd.2 (hall pd hpd))
    exact ⟨String.intercalate "\n" (spanPreludeLines ++ out),
      by rw [generate_span_builders_rs, hout]⟩

/-- A length helper: one constant line per attribute that has an id. -/
theorem attrConstLines_length (gid : String) (attrs : List Attr) :
    (attrConstLines gid attrs).length =
      (attrs.filter (fun a => a.id.isSome)).length := by
  induction attrs with
  | nil => rfl
  | cons a attrs ih =>
    cases ha : a.id with
    | none =>
      simpa [attrConstLines, List.filterMap_cons, ha, List.filter_cons] using ih
    | some aid =>
      simpa [attrConstLines, List.filterMap_cons, ha, List.filter_cons] using ih

/-! Concrete inputs used by the witnesses below. -/

/-- The example group of the spec: id `swarmsh.agent` with one attribute
`agent.id`. -/
def gAgent : Group :=
  ⟨some "swarmsh.agent", some "Agent identification", none, some [⟨some "agent.id"⟩]⟩

/-- A span-typed example group with id `swarmsh.coordination.protocol`. -/
def gSpanGroup : Group :=
  ⟨some "swarmsh.coordination.protocol", none, some "span", none⟩

/-- A group entry lacking the mandatory `id` key. -/
def gNoId : Group := ⟨none, none, none, none⟩

/-- A one-file, one-group example file system. -/
def fsAgent : FS :=
  ⟨some ⟨[⟨["agent.yaml"]⟩]⟩,
   fun p => if p = "agent.yaml" then some ⟨some [gAgent]⟩ else none⟩

/-- A file system whose manifest references a missing convention file. -/
def fsMissing : FS := ⟨some ⟨[⟨["missing.yaml"]⟩]⟩, fun _ => none⟩

/-- A file system whose manifest lists the same path twice. -/
def fsDup : FS :=
  ⟨some ⟨[⟨["agent.yaml", "agent.yaml"]⟩]⟩,
   fun p => if p = "agent.yaml" then some ⟨some [gAgent]⟩ else none⟩

/-! The claims. -/

/-- C1: for every loaded group with an `id` and every attribute of it
with an `id`, the constant emitter produces, inside the namespace block
named by the lower-cased underscore form of the group id, a constant
whose name is the upper-cased underscore form of the attribute id and
whose value is exactly `<group.id>.<attribute.id>`. -/
theorem c1_constant_per_attribute (g : Group) (gid aid : String) (a : Attr)
    (hg : g.id = some gid) (ha : a ∈ g.attributes.getD []) (hai : a.id = some aid) :
    (∃ mid, groupConstLines g =
        .ok (["// " ++ g.brief.getD "Group constants",
              "pub mod " ++ modToken gid ++ " \x7b"] ++ mid ++ ["\x7d", ""]) ∧
      constLine gid aid ∈ mid) ∧
    constLine gid aid =
      "    pub const " ++ pyUpper (dotToUnderscore aid)
        ++ ": &str = \"" ++ gid ++ "." ++ aid ++ "\";" := by
  refine ⟨⟨attrConstLines gid (g.attributes.getD []),
           by simp [groupConstLines, hg], ?_⟩, rfl⟩
  simp only [attrConstLines]
  exact List.mem_filterMap.mpr ⟨a, ha, by rw [hai]; rfl⟩

/-- Witness for C1 at the spec's example: group `swarmsh.agent`,
attribute `agent.id`. -/
theorem c1_witness :
    (∃ mid, groupConstLines gAgent =
        .ok (["// " ++ gAgent.brief.getD "Group constants",
              "pub mod " ++ modToken "swarmsh.agent" ++ " \x7b"] ++ mid ++ ["\x7d", ""]) ∧
      constLine "swarmsh.agent" "agent.id" ∈ mid) ∧
    constLine "swarmsh.agent" "agent.id" =
      "    pub const AGENT_ID: &str = \"swarmsh.agent.agent.id\";" := by
  have h := c1_constant_per_attribute gAgent "swarmsh.agent" "agent.id"
    ⟨some "agent.id"⟩ rfl (by decide) rfl
  exact ⟨h.1, h.2.trans (by decide)⟩

/-- C2: a group tagged span-emitting (its tag field equals `"span"`)
yields exactly one builder function, named
`create_<id with dots to underscores>_span`, starting a span named the
raw dotted group id; a group not so tagged yields no builder lines. -/
theorem c2_span_builder_selection (g : Group) (gid : String)
    (hg : g.id = some gid) :
    (g.type = some "span" →
      groupSpanLines g = .ok
        ["pub fn create_" ++ dotToUnderscore gid
           ++ "_span(tracer: &impl Tracer) -> BoxedSpan \x7b",
         "    tracer.start(\"" ++ gid ++ "\")",
         "\x7d", ""]) ∧
    (g.type ≠ some "span" → groupSpanLines g = .ok []) := by
  constructor
  · intro ht
    simp [groupSpanLines, ht, hg, spanFnLines]
  · intro ht
    simp [groupSpanLines, ht]

/-- Witness for C2 at the spec's example: span-typed group
`swarmsh.coordination.protocol` yields the builder; the plain attribute
group `swarmsh.agent` yields nothing. -/
theorem c2_witness :
    groupSpanLines gSpanGroup = .ok
      ["pub fn create_swarmsh_coordination_protocol_span(tracer: &impl Tracer) -> BoxedSpan \x7b",
       "    tracer.start(\"swarmsh.coordination.protocol\")",
       "\x7d", ""] ∧
    groupSpanLines gAgent = .ok [] := by
  constructor
  · exact ((c2_span_builder_selection gSpanGroup "swarmsh.coordination.protocol"
      rfl).1 rfl).trans (congrArg Except.ok (by decide))
  · exact (c2_span_builder_selection gAgent "swarmsh.agent" rfl).2 (by decide)

/-- C3: whenever a run has written either artifact, both emission passes
succeeded and both artifacts were written — no run leaves a partial
artifact behind. -/
theorem c3_no_partial_write (fs : FS)
    (h : (main fs).attributesFile.isSome = true ∨
         (main fs).spanBuildersFile.isSome = true) :
    ∃ conv a b,
      load_semantic_conventions fs = .ok conv ∧
      generate_attributes_rs conv = .ok a ∧
      generate_span_builders_rs conv = .ok b ∧
      main fs = ⟨some a, some b, none⟩ := by
  cases hload : load_semantic_conventions fs with
  | error e =>
    exfalso
    rcases h with h | h <;> simp [main, hload] at h
  | ok conv =>
    cases hA : generate_attributes_rs conv with
    | error e =>
      exfalso
      rcases h with h | h <;> simp [main, hload, hA] at h
    | ok a =>
      obtain ⟨b, hB⟩ := generate_span_builders_ok_of_attributes_ok conv a hA
      exact ⟨conv, a, b, rfl, hA, hB, by simp [main, hload, hA, hB]⟩

/-- Witness for C3 on a concrete registry with one file and one group. -/
theorem c3_witness :
    ∃ conv a b,
      load_semantic_conventions fsAgent = .ok conv ∧
      generate_attributes_rs conv = .ok a ∧
      generate_span_builders_rs conv = .ok b ∧
      main fsAgent = ⟨some a, some b, none⟩ :=
  c3_no_partial_write fsAgent (Or.inl (by decide))

/-- C4: the generator is a deterministic function of its input: two runs
over the same manifest and the same convention files produce the same
artifacts byte for byte. -/
theorem c4_deterministic (fs fs2 : FS) (hm : fs.manifest = fs2.manifest)
    (hf : fs.files = fs2.files) :
    (main fs).attributesFile = (main fs2).attributesFile ∧
    (main fs).spanBuildersFile = (main fs2).spanBuildersFile := by
  have heq : fs = fs2 := by
    cases fs with
    | mk m f =>
      cases fs2 with
      | mk m2 f2 =>
        have hm2 : m = m2 := hm
        have hf2 : f = f2 := hf
        rw [hm2, hf2]
  rw [heq]
  exact ⟨rfl, rfl⟩

/-- Witness for C4: two runs over the example registry agree. -/
theorem c4_witness :
    (main fsAgent).attributesFile = (main fsAgent).attributesFile ∧
    (main fsAgent).spanBuildersFile = (main fsAgent).spanBuildersFile :=
  c4_deterministic fsAgent fsAgent rfl rfl

/-- C5: in a group's block, the constant lines are in one-to-one,
order-preserving correspondence with the attribute entries that have an
`id` (each such entry yields exactly one constant line); entries lacking
an `id` yield no line; and the group's emission succeeds regardless. -/
theorem c5_one_constant_per_attr (g : Group) (gid : String)
    (hg : g.id = some gid) :
    (∃ ls, groupConstLines g = .ok ls) ∧
    attrConstLines gid (g.attributes.getD []) =
      ((g.attributes.getD []).filterMap Attr.id).map (constLine gid) ∧
    (attrConstLines gid (g.attributes.getD [])).length =
      ((g.attributes.getD []).filter (fun a => a.id.isSome)).length := by
  refine ⟨(groupConstLines_ok_iff g).mpr (by simp [hg]), ?_,
    attrConstLines_length gid (g.attributes.getD [])⟩
  simp [attrConstLines, List.map_filterMap]

/-- Witness for C5: a group with two attributes, the second lacking an
`id`, emits exactly one constant line. -/
theorem c5_witness :
    (∃ ls, groupConstLines ⟨some "swarmsh.work", none, none,
        some [⟨some "work.id"⟩, ⟨none⟩]⟩ = .ok ls) ∧
    attrConstLines "swarmsh.work" [⟨some "work.id"⟩, ⟨none⟩] =
      (([⟨some "work.id"⟩, ⟨none⟩] : List Attr).filterMap Attr.id).map
        (constLine "swarmsh.work") ∧
    (attrConstLines "swarmsh.work" [⟨some "work.id"⟩, ⟨none⟩]).length =
      (([⟨some "work.id"⟩, ⟨none⟩] : List Attr).filter
        (fun a => a.id.isSome)).length :=
  c5_one_constant_per_attr
    ⟨some "swarmsh.work", none, none, some [⟨some "work.id"⟩, ⟨none⟩]⟩
    "swarmsh.work" rfl

/-- C6: every successfully produced span-builders artifact starts with
the fixed preamble, whatever the registry contents; the preamble
contains the three hard-coded builder functions, each starting the span
it names. -/
theorem c6_preamble_invariance (conv : List (String × Document)) (out : String)
    (h : generate_span_builders_rs conv = .ok out) :
    (∃ ls, out = String.intercalate "\n" (spanPreludeLines ++ ls)) ∧
    spanPreludeLines =
      spanPreludeLines.take 6
        ++ ["pub fn agent_lifecycle_span(tracer: &impl Tracer) -> BoxedSpan \x7b",
            "    tracer.start(\"swarmsh.agent.lifecycle\")", "\x7d", "",
            "pub fn work_coordination_span(tracer: &impl Tracer) -> BoxedSpan \x7b",
            "    tracer.start(\"swarmsh.work.coordination\")", "\x7d", "",
            "pub fn coordination_protocol_span(tracer: &impl Tracer) -> BoxedSpan \x7b",
            "    tracer.start(\"swarmsh.coordination.protocol\")", "\x7d", ""]
        ++ ["// Generated span builders for all groups"] := by
  constructor
  · rw [generate_span_builders_rs] at h
    cases hc : exceptConcat (fun pd => docSpanLines pd.2) conv with
    | error e => rw [hc] at h; cases h
    | ok ls =>
      rw [hc] at h
      cases h
      exact ⟨ls, rfl⟩
  · rfl

/-- Witness for C6 on the empty registry. -/
theorem c6_witness :
    (∃ ls, String.intercalate "\n" (spanPreludeLines ++ []) =
      String.intercalate "\n" (spanPreludeLines ++ ls)) ∧
    spanPreludeLines =
      spanPreludeLines.take 6
        ++ ["pub fn agent_lifecycle_span(tracer: &impl Tracer) -> BoxedSpan \x7b",
            "    tracer.start(\"swarmsh.agent.lifecycle\")", "\x7d", "",
            "pub fn work_coordination_span(tracer: &impl Tracer) -> BoxedSpan \x7b",
            "    tracer.start(\"swarmsh.work.coordination\")", "\x7d", "",
            "pub fn coordination_protocol_span(tracer: &impl Tracer) -> BoxedSpan \x7b",
            "    tracer.start(\"swarmsh.coordination.protocol\")", "\x7d", ""]
        ++ ["// Generated span builders for all groups"] :=
  c6_preamble_invariance [] (String.intercalate "\n" (spanPreludeLines ++ [])) rfl

/-- C7: a missing manifest, or a manifest path with no file behind it,
makes the run abort with a file-not-found error and write neither
artifact. -/
theorem c7_missing_input_aborts (fs : FS)
    (h : fs.manifest = none ∨
      ∃ reg, fs.manifest = some reg ∧
        ∃ p ∈ reg.groups.flatMap ManifestGroup.paths, fs.files p = none) :
    (∃ q, load_semantic_conventions fs = .error (.fileNotFound q)) ∧
    (main fs).attributesFile = none ∧
    (main fs).spanBuildersFile = none ∧
    (main fs).error.isSome = true := by
  have hload : ∃ q, load_semantic_conventions fs = .error (.fileNotFound q) := by
    rcases h with hm | ⟨reg, hm, p, hp, hmiss⟩
    · exact ⟨"registry_manifest.yaml", by rw [load_semantic_conventions, hm]⟩
    · obtain ⟨q, hq, _⟩ := loadPaths_error_of_missing fs.files
        (reg.groups.flatMap ManifestGroup.paths) [] p hp hmiss
      exact ⟨q, by rw [load_semantic_conventions, hm]; exact hq⟩
  obtain ⟨q, hq⟩ := hload
  refine ⟨⟨q, hq⟩, ?_, ?_, ?_⟩ <;> simp [main, hq]

/-- Witness for C7 on a manifest referencing only a missing file. -/
theorem c7_witness :
    (∃ q, load_semantic_conventions fsMissing = .error (.fileNotFound q)) ∧
    (main fsMissing).attributesFile = none ∧
    (main fsMissing).spanBuildersFile = none ∧
    (main fsMissing).error.isSome = true :=
  c7_missing_input_aborts fsMissing
    (Or.inr ⟨⟨[⟨["missing.yaml"]⟩]⟩, rfl, "missing.yaml", by decide, rfl⟩)

/-- C8: a group with an `id` but an absent or empty `attributes` list
emits a well-formed, empty-bodied namespace block and does not fail. -/
theorem c8_empty_attributes (g : Group) (gid : String) (hg : g.id = some gid)
    (h : g.attributes = none ∨ g.attributes = some []) :
    groupConstLines g = .ok
      ["// " ++ g.brief.getD "Group constants",
       "pub mod " ++ modToken gid ++ " \x7b", "\x7d", ""] := by
  rcases h with h | h <;> simp [groupConstLines, hg, h, attrConstLines]

/-- Witness for C8: a group with no `attributes` key. -/
theorem c8_witness :
    groupConstLines ⟨some "swarmsh.health", some "Health checks", none, none⟩ =
      .ok ["// " ++ (some "Health checks").getD "Group constants",
           "pub mod " ++ modToken "swarmsh.health" ++ " \x7b", "\x7d", ""] :=
  c8_empty_attributes ⟨some "swarmsh.health", some "Health checks", none, none⟩
    "swarmsh.health" rfl (Or.inl rfl)

/-- C9: a loaded document with a group lacking the `id` key makes
constant emission fail with the lookup error `KeyError("id")` — there is
no silent skip for groups, unlike for attributes. -/
theorem c9_group_without_id_fails (conv : List (String × Document))
    (pr : String × Document) (gs : List Group) (g : Group)
    (hpr : pr ∈ conv) (hgs : pr.2.groups = some gs) (hg : g ∈ gs)
    (hid : g.id = none) :
    generate_attributes_rs conv = .error (.keyError "id") := by
  have hgerr : groupConstLines g = .error (.keyError "id") := by
    simp [groupConstLines, hid]
  obtain ⟨e1, hdoc⟩ : ∃ e1, docConstLines pr.2 = .error e1 := by
    obtain ⟨e1, h1⟩ := exceptConcat_error_of_mem groupConstLines gs g
      (.keyError "id") hg hgerr
    exact ⟨e1, by rw [docConstLines, hgs]; exact h1⟩
  obtain ⟨e2, hconv⟩ := exceptConcat_error_of_mem
    (fun pd => docConstLines pd.2) conv pr e1 hpr hdoc
  have hgen : generate_attributes_rs conv = .error e2 := by
    rw [generate_attributes_rs, hconv]
  rw [hgen, generate_attributes_rs_error_elim conv e2 hgen]

/-- Witness for C9: one loaded file whose only group lacks an `id`. -/
theorem c9_witness :
    generate_attributes_rs [("bad.yaml", ⟨some [gNoId]⟩)] =
      .error (.keyError "id") :=
  c9_group_without_id_fails [("bad.yaml", ⟨some [gNoId]⟩)]
    ("bad.yaml", ⟨some [gNoId]⟩) [gNoId] gNoId (by decide) rfl (by decide) rfl

/-- C10: a successful load keys the mapping by path with no duplicates:
the keys are exactly the listed paths, every listed path occurs exactly
once, and each entry holds the document stored at its path — so a path
listed twice is loaded into one entry and emitted once. -/
theorem c10_duplicate_paths_collapse (fs : FS) (reg : Manifest)
    (conv : List (String × Document)) (hm : fs.manifest = some reg)
    (hload : load_semantic_conventions fs = .ok conv) :
    (conv.map Prod.fst).Nodup ∧
    (∀ p, p ∈ conv.map Prod.fst ↔ p ∈ reg.groups.flatMap ManifestGroup.paths) ∧
    (∀ p ∈ reg.groups.flatMap ManifestGroup.paths,
      (conv.map Prod.fst).count p = 1) ∧
    (∀ pr ∈ conv, fs.files pr.1 = some pr.2) := by
  rw [load_semantic_conventions, hm] at hload
  have hnd := loadPaths_nodup fs.files
    (reg.groups.flatMap ManifestGroup.paths) [] conv hload (by simp)
  have hmem : ∀ p, p ∈ conv.map Prod.fst ↔
      p ∈ reg.groups.flatMap ManifestGroup.paths := by
    intro p
    have := loadPaths_mem_keys fs.files
      (reg.groups.flatMap ManifestGroup.paths) [] conv hload p
    simpa using this
  refine ⟨hnd, hmem, ?_, loadPaths_pairs fs.files
    (reg.groups.flatMap ManifestGroup.paths) [] conv hload (by simp)⟩
  intro p hp
  exact List.count_eq_one_of_mem hnd ((hmem p).mpr hp)

/-- Witness for C10: a manifest listing `agent.yaml` twice loads it into
a single-entry mapping. -/
theorem c10_witness :
    (([("agent.yaml", (⟨some [gAgent]⟩ : Document))].map Prod.fst).Nodup) ∧
    (∀ p, p ∈ [("agent.yaml", (⟨some [gAgent]⟩ : Document))].map Prod.fst ↔
      p ∈ (Manifest.mk [⟨["agent.yaml", "agent.yaml"]⟩]).groups.flatMap
        ManifestGroup.paths) ∧
    (∀ p ∈ (Manifest.mk [⟨["agent.yaml", "agent.yaml"]⟩]).groups.flatMap
        ManifestGroup.paths,
      (([("agent.yaml", (⟨some [gAgent]⟩ : Document))].map Prod.fst).count p = 1)) ∧
    (∀ pr ∈ [("agent.yaml", (⟨some [gAgent]⟩ : Document))],
      fsDup.files pr.1 = some pr.2) :=
  c10_duplicate_paths_collapse fsDup ⟨[⟨["agent.yaml", "agent.yaml"]⟩]⟩
    [("agent.yaml", ⟨some [gAgent]⟩)] rfl rfl

end SwarmSH
